import Mathlib

/-!
Shallow embedding of the inventory-and-booking core of the Eventora backend.

The definitions below are translated from the JavaScript source:
* `src/src/routes/booking.routes.js` — the createBooking (`router.post('/')`)
  and cancelBooking (`router.put('/:id/cancel')`) handlers;
* `src/src/routes/event.routes.js` — the event update (`router.put('/:id')`)
  and delete (`router.delete('/:id')`) handlers;
* `src/unnamed/part_001` — the Mongoose booking and event schemas with their
  `pre('save')` id-allocation hooks over the `Counter` collection
  (`findOneAndUpdate({name}, {$inc: {seq: 1}}, {new: true, upsert: true})`).

The Mongo/Mongoose store is modelled as explicit state (`St`): a list of event
documents, a list of booking documents, and the counter collection.  A
`findOne` is `List.find?` (first matching document); a `save` of a fetched
document writes back the first matching document (`updateFirst`);
`findOneAndDelete` removes the first matching document (`removeFirst`).
Numeric document fields are `Int` (they are integer-valued on all paths the
claims touch).  HTTP responses are modelled as result codes.
-/

namespace Eventora

/-- Booking `status` field: `enum: ["active", "cancelled"], default: "active"`
(booking schema, `src/unnamed/part_001` lines 30-34). -/
inductive BookingStatus
  | active
  | cancelled
deriving DecidableEq, Repr

/-- The inventory-relevant fields of an event document
(event schema, `src/unnamed/part_001` lines 69-129). -/
structure Event where
  id : Nat
  price : Int
  totalTickets : Int
  availableTickets : Int
deriving DecidableEq, Repr

/-- The fields of a booking document
(booking schema, `src/unnamed/part_001` lines 4-43). -/
structure Booking where
  id : Nat
  userId : Nat
  eventId : Nat
  quantity : Int
  totalPrice : Int
  status : BookingStatus
deriving DecidableEq, Repr

/-- The authenticated requester (`req.user`): its identity and whether the
`isAdmin` middleware would let it through.  The cancel handler only ever
compares `_id`s; the flag is carried to state the authorization claims. -/
structure Requester where
  id : Nat
  isAdmin : Bool
deriving DecidableEq, Repr

/-- The persistent store: the event collection, the booking collection and the
counter collection (`name ↦ seq`). -/
structure St where
  events : List Event
  bookings : List Booking
  counters : List (String × Nat)
deriving DecidableEq, Repr

/-- Write back a fetched document: apply `f` to the first element satisfying
`p`, leave everything else in place (Mongoose `document.save()` updates
exactly the document that `findOne` returned). -/
def updateFirst (p : α → Bool) (f : α → α) : List α → List α
  | [] => []
  | x :: xs => if p x then f x :: xs else x :: updateFirst p f xs

/-- `findOneAndDelete`: remove the first element satisfying `p`. -/
def removeFirst (p : α → Bool) : List α → List α
  | [] => []
  | x :: xs => if p x then xs else x :: removeFirst p xs

/-- `Event.findOne({ id: eid })`. -/
def findEvent (s : St) (eid : Nat) : Option Event :=
  s.events.find? (fun e => e.id == eid)

/-- `Booking.findOne({ id: bid })`. -/
def findBooking (s : St) (bid : Nat) : Option Booking :=
  s.bookings.find? (fun b => b.id == bid)

/-- The last-issued value of a named counter; a missing counter document reads
as 0 (the document does not exist until first upsert). -/
def lookupSeq (cs : List (String × Nat)) (n : String) : Nat :=
  match cs.find? (fun c => c.1 == n) with
  | some c => c.2
  | none => 0

/-- `Counter.findOneAndUpdate({ name: n }, { $inc: { seq: 1 } },
{ new: true, upsert: true })` (the `pre('save')` hooks,
`src/unnamed/part_001` lines 47-61 and 151-167): atomically increment the
counter — creating it with seq = 1 on first use — and return the new value. -/
def counterNext (cs : List (String × Nat)) (n : String) : Nat × List (String × Nat) :=
  match cs.find? (fun c => c.1 == n) with
  | some c => (c.2 + 1, updateFirst (fun c => c.1 == n) (fun c => (c.1, c.2 + 1)) cs)
  | none => (1, (n, 1) :: cs)

/-- A trace of allocator calls: run `counterNext` once per requested
namespace, in order, recording each returned value.  `findOneAndUpdate` with
`$inc` is a single atomic storage operation, so any concurrent execution of
these calls linearizes to such a trace. -/
def runAlloc (cs : List (String × Nat)) : List String → List (String × Nat)
  | [] => []
  | n :: rest =>
    let r := counterNext cs n
    (n, r.1) :: runAlloc r.2 rest

/-- The values a trace returned for one namespace, in call order. -/
def issuedFor (n : String) : List (String × Nat) → List Nat
  | [] => []
  | p :: ps => if p.1 == n then p.2 :: issuedFor n ps else issuedFor n ps

/-- Outcome of the createBooking handler (`booking.routes.js` lines 18-58). -/
inductive CreateResult
  | invalidQuantity
  | eventNotFound
  | insufficientInventory
  | created (b : Booking)
  | persistError
deriving DecidableEq, Repr

/-- The createBooking handler, `router.post('/')` in `booking.routes.js`
lines 18-58.  In source order: the validator rejects `quantity < 1` (400);
`Event.findOne({id: eventId})` missing gives 404; `availableTickets <
quantity` gives 400; otherwise the handler decrements the fetched event's
`availableTickets` and saves it, then saves the new booking — whose
`pre('save')` hook draws its `id` from the `"bookingId"` counter — with
`totalPrice = event.price * quantity` and default status active.
`insertOk = false` models the booking document write failing after the
pre-save hook ran (the `catch` returns 500 with no compensating release). -/
def createBookingRun (s : St) (userId eid : Nat) (q : Int) (insertOk : Bool) :
    CreateResult × St :=
  if q < 1 then (.invalidQuantity, s)
  else
    match s.events.find? (fun e => e.id == eid) with
    | none => (.eventNotFound, s)
    | some event =>
      if event.availableTickets < q then (.insufficientInventory, s)
      else
        let events' := updateFirst (fun e => e.id == eid)
          (fun e => { e with availableTickets := e.availableTickets - q }) s.events
        let alloc := counterNext s.counters "bookingId"
        if insertOk then
          let b : Booking :=
            { id := alloc.1, userId := userId, eventId := eid, quantity := q,
              totalPrice := event.price * q, status := .active }
          (.created b, { events := events', bookings := s.bookings ++ [b],
                         counters := alloc.2 })
        else
          (.persistError, { events := events', bookings := s.bookings,
                            counters := alloc.2 })

/-- A createBooking call on which every persistence step succeeds. -/
def createBooking (s : St) (userId eid : Nat) (q : Int) : CreateResult × St :=
  createBookingRun s userId eid q true

/-- Outcome of the cancelBooking handler (`booking.routes.js` lines 96-131). -/
inductive CancelResult
  | notFound
  | forbidden
  | alreadyCancelled
  | serverError
  | cancelled
deriving DecidableEq, Repr

/-- The cancelBooking handler, `router.put('/:id/cancel')` in
`booking.routes.js` lines 96-131.  In source order: `Booking.findOne({id})`
missing gives 404; `booking.user.toString() !== req.user._id.toString()`
gives 403 (only ownership is compared — the admin flag is never consulted);
`status === 'cancelled'` gives 400; then `Event.findOne({id: booking.event})`
— if the event is absent the handler dereferences `null` and the generic
`catch` returns 500 with nothing written; otherwise it adds
`booking.quantity` back to `availableTickets` (no cap), saves the event, sets
the booking's status to cancelled and saves it. -/
def cancelBooking (s : St) (r : Requester) (bid : Nat) : CancelResult × St :=
  match s.bookings.find? (fun b => b.id == bid) with
  | none => (.notFound, s)
  | some b =>
    if b.userId != r.id then (.forbidden, s)
    else if b.status == .cancelled then (.alreadyCancelled, s)
    else
      match s.events.find? (fun e => e.id == b.eventId) with
      | none => (.serverError, s)
      | some _ =>
        let events' := updateFirst (fun e => e.id == b.eventId)
          (fun e => { e with availableTickets := e.availableTickets + b.quantity }) s.events
        let bookings' := updateFirst (fun bb => bb.id == bid)
          (fun bb => { bb with status := .cancelled }) s.bookings
        (.cancelled, { s with events := events', bookings := bookings' })

/-- Outcome of the event update handler (`event.routes.js` lines 275-331). -/
inductive UpdateResult
  | notFound
  | badRequest
  | ok
deriving DecidableEq, Repr

/-- The event update handler, `router.put('/:id')` in `event.routes.js`
lines 275-331, restricted to the fields the claims touch (`price`,
`totalTickets`; the other updated fields do not interact with bookings or
inventory).  When `totalTickets` is supplied, `availableTickets` is shifted
by the difference and the request is rejected if that would go below 0; then
`Object.assign(event, updates); event.save()`.  The handler never reads or
writes the booking collection. -/
def updateEvent (s : St) (eid : Nat) (newPrice : Option Int) (newTotal : Option Int) :
    UpdateResult × St :=
  match s.events.find? (fun e => e.id == eid) with
  | none => (.notFound, s)
  | some event =>
    match newTotal with
    | some t =>
      if event.availableTickets + (t - event.totalTickets) < 0 then (.badRequest, s)
      else
        let f : Event → Event := fun e =>
          { e with price := newPrice.getD e.price, totalTickets := t,
                   availableTickets := e.availableTickets + (t - e.totalTickets) }
        let events' := updateFirst (fun e => e.id == eid) f s.events
        (.ok, { s with events := events' })
    | none =>
      let events' := updateFirst (fun e => e.id == eid)
        (fun e => { e with price := newPrice.getD e.price }) s.events
      (.ok, { s with events := events' })

/-- The event delete handler, `router.delete('/:id')` in `event.routes.js`
lines 333-344: `Event.findOneAndDelete({ id: eventId })`, 404 when absent.
Returns whether the delete found its event. -/
def deleteEvent (s : St) (eid : Nat) : Bool × St :=
  match s.events.find? (fun e => e.id == eid) with
  | none => (false, s)
  | some _ => (true, { s with events := removeFirst (fun e => e.id == eid) s.events })

/-- The creation-time fields of a booking record: everything except the
mutable `status` flag. -/
def bookingCore (b : Booking) : Nat × Nat × Nat × Int × Int :=
  (b.id, b.userId, b.eventId, b.quantity, b.totalPrice)

/-- Total quantity of active bookings on event `eid` — the sum the spec's
inventory invariant is about. -/
def activeSum : List Booking → Nat → Int
  | [], _ => 0
  | b :: bs, eid =>
    (if b.eventId = eid ∧ b.status = .active then b.quantity else 0) + activeSum bs eid

/-- Spec §8 inventory invariant, stated for every event document in the
store. -/
def Consistent (s : St) : Prop :=
  ∀ e ∈ s.events, e.availableTickets + activeSum s.bookings e.id = e.totalTickets

/-- Event ids are pairwise distinct (the schema declares `id` `unique`). -/
def EventIdsNodup (s : St) : Prop :=
  (s.events.map Event.id).Nodup

/-- The operations of the booking lifecycle, as fired by requests. -/
inductive Op
  | create (userId eid : Nat) (q : Int)
  | cancel (r : Requester) (bid : Nat)

/-- Apply one completed request to the store. -/
def applyOp (s : St) : Op → St
  | .create u eid q => (createBooking s u eid q).2
  | .cancel r bid => (cancelBooking s r bid).2

/-- Apply a sequence of completed requests. -/
def runOps (s : St) (ops : List Op) : St :=
  ops.foldl applyOp s

/-! ### Interleaving model of the reservation step

The createBooking handler reads the event (`Event.findOne`, line 31), checks
`event.availableTickets < quantity` (line 37), and only later writes the
decremented value back (`event.availableTickets -= quantity; await
event.save()`, lines 50-51).  The `await`s between the read and the write are
suspension points of the Node event loop, so two requests can interleave
there.  Each quantity-1 reservation attempt is modelled as two atomic phases
against the shared `availableTickets` value. -/

/-- Progress of one quantity-1 reservation attempt: not yet started, read the
event and passed the availability check (holding the snapshot it read), or
finished. -/
inductive APhase
  | start
  | readDone (snap : Int)
  | succeeded
  | failed
deriving DecidableEq, Repr

/-- One scheduler step of an attempt.  From `start`: `Event.findOne` plus the
`availableTickets < quantity` check (booking.routes.js lines 31-39) — fail
with 400 if the snapshot is below 1, otherwise remember the snapshot.  From
`readDone snap`: `event.availableTickets -= quantity; await event.save()`
(lines 50-51) — the document carries the value computed from the snapshot,
so the save stores `snap - 1` regardless of what the store holds now. -/
def attemptStep (avail : Int) : APhase → Int × APhase
  | .start => if avail < 1 then (avail, .failed) else (avail, .readDone avail)
  | .readDone snap => (snap - 1, .succeeded)
  | p => (avail, p)

/-- Run a schedule: each entry names which attempt performs its next step. -/
def runSched (avail : Int) (ps : List APhase) : List Nat → Int × List APhase
  | [] => (avail, ps)
  | i :: rest =>
    match ps[i]? with
    | none => runSched avail ps rest
    | some p =>
      let r := attemptStep avail p
      runSched r.1 (ps.set i r.2) rest

/-- Number of attempts that succeeded. -/
def countSucc (ps : List APhase) : Nat :=
  ps.count .succeeded

/-! ### Generic lemmas about the store primitives -/

theorem updateFirst_decomp (p : α → Bool) (f : α → α) :
    ∀ {l : List α} {x : α}, l.find? p = some x →
      ∃ l₁ l₂, l = l₁ ++ x :: l₂ ∧ (∀ y ∈ l₁, p y = false) ∧
        updateFirst p f l = l₁ ++ f x :: l₂ := by
  intro l
  induction l with
  | nil => intro x h; simp [List.find?] at h
  | cons a as ih =>
    intro x h
    by_cases hp : p a
    · rw [List.find?_cons_of_pos _ hp] at h
      cases h
      exact ⟨[], as, by simp, by simp, by simp [updateFirst, hp]⟩
    · rw [List.find?_cons_of_neg _ hp] at h
      obtain ⟨l₁, l₂, hl, h₁, hu⟩ := ih h
      refine ⟨a :: l₁, l₂, by simp [hl], ?_, ?_⟩
      · intro y hy
        rcases List.mem_cons.mp hy with rfl | hy
        · simpa using hp
        · exact h₁ y hy
      · simp [updateFirst, hp, hu]

theorem updateFirst_map (g : α → β) (p : α → Bool) (f : α → α)
    (hf : ∀ a, g (f a) = g a) :
    ∀ l : List α, (updateFirst p f l).map g = l.map g := by
  intro l
  induction l with
  | nil => rfl
  | cons a as ih =>
    by_cases hp : p a
    · simp [updateFirst, hp, hf]
    · simp [updateFirst, hp, ih]

theorem find?_updateFirst_pos (p : α → Bool) (f : α → α)
    (hf : ∀ a, p a = true → p (f a) = true) :
    ∀ l : List α, (updateFirst p f l).find? p = (l.find? p).map f := by
  intro l
  induction l with
  | nil => rfl
  | cons a as ih =>
    by_cases hp : p a
    · simp [updateFirst, hp, List.find?_cons_of_pos _ hp,
        List.find?_cons_of_pos _ (hf a hp)]
    · simp [updateFirst, hp, List.find?_cons_of_neg _ hp, ih]

theorem find?_updateFirst_other (p q : α → Bool) (f : α → α)
    (hf : ∀ a, p a = true → q a = false ∧ q (f a) = false) :
    ∀ l : List α, (updateFirst p f l).find? q = l.find? q := by
  intro l
  induction l with
  | nil => rfl
  | cons a as ih =>
    by_cases hp : p a
    · obtain ⟨h₁, h₂⟩ := hf a hp
      simp [updateFirst, hp, List.find?_cons_of_neg, h₁, h₂]
    · by_cases hq : q a
      · simp [updateFirst, hp, List.find?_cons_of_pos _ hq]
      · simp [updateFirst, hp, List.find?_cons_of_neg _ hq, ih]

theorem find?_removeFirst_of_nodup (g : α → Nat) (v : Nat) :
    ∀ l : List α, (l.map g).Nodup → l.find? (fun a => g a == v) = some x →
      (removeFirst (fun a => g a == v) l).find? (fun a => g a == v) = none := by
  intro l
  induction l with
  | nil => intro _ h; simp [List.find?] at h
  | cons a as ih =>
    intro hn h
    by_cases hp : (g a == v) = true
    · have hgv : g a = v := by simpa using hp
      rw [List.map_cons, List.nodup_cons] at hn
      rw [show removeFirst (fun a => g a == v) (a :: as) = as by simp [removeFirst, hp]]
      rw [List.find?_eq_none]
      intro b hb hbv
      exact hn.1 (hgv ▸ (by simpa using hbv : g b = v) ▸ List.mem_map_of_mem g hb)
    · rw [List.find?_cons_of_neg (p := fun a => g a == v) _ hp] at h
      rw [List.map_cons, List.nodup_cons] at hn
      rw [show removeFirst (fun a => g a == v) (a :: as) =
            a :: removeFirst (fun a => g a == v) as by simp [removeFirst, hp]]
      rw [List.find?_cons_of_neg (p := fun a => g a == v) _ hp]
      exact ih hn.2 h

theorem activeSum_append (l₁ l₂ : List Booking) (eid : Nat) :
    activeSum (l₁ ++ l₂) eid = activeSum l₁ eid + activeSum l₂ eid := by
  induction l₁ with
  | nil => simp [activeSum]
  | cons b bs ih => simp [activeSum, ih]; ring

/-! ### Allocator lemmas -/

theorem counterNext_fst (cs : List (String × Nat)) (n : String) :
    (counterNext cs n).1 = lookupSeq cs n + 1 := by
  unfold counterNext lookupSeq
  cases h : cs.find? (fun c => c.1 == n) <;> simp [h]

theorem lookupSeq_counterNext_self (cs : List (String × Nat)) (n : String) :
    lookupSeq (counterNext cs n).2 n = lookupSeq cs n + 1 := by
  unfold counterNext
  cases h : cs.find? (fun c => c.1 == n) with
  | none => simp [lookupSeq, h]
  | some c =>
    have hupd := find?_updateFirst_pos (fun c => c.1 == n)
      (fun c => (c.1, c.2 + 1)) (fun a ha => ha) cs
    simp [lookupSeq, hupd, h]

theorem lookupSeq_counterNext_other (cs : List (String × Nat)) {n m : String}
    (hnm : m ≠ n) : lookupSeq (counterNext cs n).2 m = lookupSeq cs m := by
  unfold counterNext
  cases h : cs.find? (fun c => c.1 == n) with
  | none =>
    have hne : ((n, 1).1 == m) = false := by simp [Ne.symm hnm]
    simp [lookupSeq, hne]
  | some c =>
    have hf : ∀ a : String × Nat, (a.1 == n) = true →
        (a.1 == m) = false ∧ (((a.1, a.2 + 1) : String × Nat).1 == m) = false := by
      intro a ha
      have h1 : a.1 = n := by simpa using ha
      constructor <;> simp [h1, Ne.symm hnm]
    have hupd := find?_updateFirst_other (fun c => c.1 == n) (fun c => c.1 == m)
      (fun c => (c.1, c.2 + 1)) hf cs
    simp [lookupSeq, hupd]

theorem issuedFor_runAlloc (n : String) :
    ∀ (calls : List String) (cs : List (String × Nat)),
      issuedFor n (runAlloc cs calls) = List.range' (lookupSeq cs n + 1) (calls.count n) := by
  intro calls
  induction calls with
  | nil => intro cs; simp [runAlloc, issuedFor]
  | cons m rest ih =>
    intro cs
    by_cases hmn : m = n
    · subst hmn
      simp only [runAlloc, issuedFor]
      rw [if_pos (by simp)]
      rw [ih, counterNext_fst, lookupSeq_counterNext_self]
      rw [List.count_cons_self, List.range'_succ]
    · simp only [runAlloc, issuedFor]
      rw [if_neg (by simp [hmn])]
      rw [ih, lookupSeq_counterNext_other cs (Ne.symm hmn)]
      have : (rest.count n : Nat) = (m :: rest).count n := by
        simp [List.count_cons, hmn]
      rw [this]

/-! ### Inventory-invariant preservation lemmas -/

theorem activeSum_updateFirst_cancel (bs : List Booking) (bid : Nat) (b : Booking)
    (hf : bs.find? (fun x => x.id == bid) = some b) (hact : b.status = .active) :
    ∀ eid, activeSum (updateFirst (fun x => x.id == bid)
        (fun x => { x with status := .cancelled }) bs) eid
      = activeSum bs eid - (if b.eventId = eid then b.quantity else 0) := by
  obtain ⟨l₁, l₂, hl, -, hu⟩ := updateFirst_decomp (fun x : Booking => x.id == bid)
    (fun x : Booking => { x with status := .cancelled }) hf
  intro eid
  rw [hu, hl, activeSum_append, activeSum_append]
  simp only [activeSum]
  have hb' : (if ({ b with status := .cancelled } : Booking).eventId = eid ∧
      ({ b with status := .cancelled } : Booking).status = .active then
      ({ b with status := .cancelled } : Booking).quantity else 0) = 0 := by
    simp
  have hbc : (if b.eventId = eid ∧ b.status = .active then b.quantity else 0) =
      if b.eventId = eid then b.quantity else 0 := by
    simp [hact]
  rw [hb', hbc]
  ring

theorem create_preserves (s : St) (u eid : Nat) (q : Int)
    (hn : EventIdsNodup s) (hc : Consistent s) :
    EventIdsNodup (createBooking s u eid q).2 ∧ Consistent (createBooking s u eid q).2 := by
  by_cases h1 : q < 1
  · simpa [createBooking, createBookingRun, h1] using ⟨hn, hc⟩
  · cases hev : s.events.find? (fun e => e.id == eid) with
    | none => simpa [createBooking, createBookingRun, h1, hev] using ⟨hn, hc⟩
    | some ev =>
      by_cases h2 : ev.availableTickets < q
      · simpa [createBooking, createBookingRun, h1, hev, h2] using ⟨hn, hc⟩
      · have hrun : (createBooking s u eid q).2 =
            { events := updateFirst (fun e => e.id == eid)
                (fun e => { e with availableTickets := e.availableTickets - q }) s.events,
              bookings := s.bookings ++
                [{ id := (counterNext s.counters "bookingId").1, userId := u,
                   eventId := eid, quantity := q, totalPrice := ev.price * q,
                   status := .active }],
              counters := (counterNext s.counters "bookingId").2 } := by
          simp [createBooking, createBookingRun, h1, hev, h2]
        constructor
        · show ((createBooking s u eid q).2.events.map Event.id).Nodup
          rw [hrun]
          simpa [updateFirst_map Event.id (fun e => e.id == eid)
            (fun e => { e with availableTickets := e.availableTickets - q })
            (fun a => rfl) s.events] using hn
        · rw [hrun]
          obtain ⟨l₁, l₂, hl, hl1, hu⟩ := updateFirst_decomp (fun e : Event => e.id == eid)
            (fun e : Event => { e with availableTickets := e.availableTickets - q }) hev
          have hevid : ev.id = eid := by
            simpa using List.find?_some hev
          have hsum : ∀ x, activeSum (s.bookings ++
              [{ id := (counterNext s.counters "bookingId").1, userId := u,
                 eventId := eid, quantity := q, totalPrice := ev.price * q,
                 status := .active }]) x
              = activeSum s.bookings x + (if eid = x then q else 0) := by
            intro x
            rw [activeSum_append]
            simp [activeSum]
          intro e' he'
          simp only [hu] at he'
          simp only [hsum]
          rcases List.mem_append.mp he' with hL | hR
          · have hne : e'.id ≠ eid := by
              have := hl1 e' hL
              simpa using this
            have hmem : e' ∈ s.events := hl ▸ List.mem_append_left _ hL
            have := hc e' hmem
            simp [Ne.symm hne]
            omega
          · rcases List.mem_cons.mp hR with rfl | hL2
            · have hmem : ev ∈ s.events := hl ▸ List.mem_append_right _
                (List.mem_cons_self _ _)
              have hinv := hc ev hmem
              rw [hevid] at hinv
              simp [hevid]
              omega
            · have hnodup : (s.events.map Event.id).Nodup := hn
              rw [show s.events = l₁ ++ ev :: l₂ from hl, List.map_append,
                List.map_cons] at hnodup
              have hnotin : ev.id ∉ l₂.map Event.id :=
                (List.nodup_cons.mp (List.nodup_append.mp hnodup).2.1).1
              have hne : e'.id ≠ eid := by
                intro hcontra
                exact hnotin (hevid ▸ hcontra ▸ List.mem_map_of_mem Event.id hL2)
              have hmem : e' ∈ s.events := hl ▸ List.mem_append_right _
                (List.mem_cons_of_mem _ hL2)
              have := hc e' hmem
              simp [Ne.symm hne]
              omega

theorem cancel_preserves (s : St) (r : Requester) (bid : Nat)
    (hn : EventIdsNodup s) (hc : Consistent s) :
    EventIdsNodup (cancelBooking s r bid).2 ∧ Consistent (cancelBooking s r bid).2 := by
  cases hb : s.bookings.find? (fun x => x.id == bid) with
  | none => simpa [cancelBooking, hb] using ⟨hn, hc⟩
  | some b =>
    by_cases ho : b.userId = r.id
    · by_cases hst : b.status = .cancelled
      · simpa [cancelBooking, hb, ho, hst] using ⟨hn, hc⟩
      · have hact : b.status = .active := by
          cases h : b.status
          · rfl
          · exact absurd h hst
        cases hev : s.events.find? (fun x => x.id == b.eventId) with
        | none => simpa [cancelBooking, hb, ho, hst, hev] using ⟨hn, hc⟩
        | some ev =>
          have hrun : (cancelBooking s r bid).2 =
              { events := updateFirst (fun x => x.id == b.eventId)
                  (fun x => { x with availableTickets :=
                    x.availableTickets + b.quantity }) s.events,
                bookings := updateFirst (fun x => x.id == bid)
                  (fun x => { x with status := .cancelled }) s.bookings,
                counters := s.counters } := by
            simp [cancelBooking, hb, ho, hst, hev]
          constructor
          · show ((cancelBooking s r bid).2.events.map Event.id).Nodup
            rw [hrun]
            simpa [updateFirst_map Event.id (fun x => x.id == b.eventId)
              (fun x => { x with availableTickets := x.availableTickets + b.quantity })
              (fun a => rfl) s.events] using hn
          · rw [hrun]
            obtain ⟨l₁, l₂, hl, hl1, hu⟩ := updateFirst_decomp
              (fun x : Event => x.id == b.eventId)
              (fun x : Event => { x with availableTickets := x.availableTickets + b.quantity })
              hev
            have hevid : ev.id = b.eventId := by
              simpa using List.find?_some hev
            have hsum := activeSum_updateFirst_cancel s.bookings bid b hb hact
            intro e' he'
            simp only [hu] at he'
            simp only [hsum]
            rcases List.mem_append.mp he' with hL | hR
            · have hne : e'.id ≠ b.eventId := by
                have := hl1 e' hL
                simpa using this
              have hmem : e' ∈ s.events := hl ▸ List.mem_append_left _ hL
              have := hc e' hmem
              simp [Ne.symm hne]
              omega
            · rcases List.mem_cons.mp hR with rfl | hL2
              · have hmem : ev ∈ s.events := hl ▸ List.mem_append_right _
                  (List.mem_cons_self _ _)
                have hinv := hc ev hmem
                rw [hevid] at hinv
                simp [hevid]
                omega
              · have hnodup : (s.events.map Event.id).Nodup := hn
                rw [show s.events = l₁ ++ ev :: l₂ from hl, List.map_append,
                  List.map_cons] at hnodup
                have hnotin : ev.id ∉ l₂.map Event.id :=
                  (List.nodup_cons.mp (List.nodup_append.mp hnodup).2.1).1
                have hne : e'.id ≠ b.eventId := by
                  intro hcontra
                  exact hnotin (hevid ▸ hcontra ▸ List.mem_map_of_mem Event.id hL2)
                have hmem : e' ∈ s.events := hl ▸ List.mem_append_right _
                  (List.mem_cons_of_mem _ hL2)
                have := hc e' hmem
                simp [Ne.symm hne]
                omega
    · simpa [cancelBooking, hb, ho] using ⟨hn, hc⟩

theorem runOps_preserves : ∀ (ops : List Op) (s : St),
    EventIdsNodup s → Consistent s →
    EventIdsNodup (runOps s ops) ∧ Consistent (runOps s ops) := by
  intro ops
  induction ops with
  | nil => intro s hn hc; exact ⟨hn, hc⟩
  | cons op rest ih =>
    intro s hn hc
    show EventIdsNodup (runOps (applyOp s op) rest) ∧
      Consistent (runOps (applyOp s op) rest)
    cases op with
    | create u eid q =>
      obtain ⟨hn', hc'⟩ := create_preserves s u eid q hn hc
      exact ih _ hn' hc'
    | cancel r bid =>
      obtain ⟨hn', hc'⟩ := cancel_preserves s r bid hn hc
      exact ih _ hn' hc'

/-! ### Claim theorems -/

/-- C5: every failing createBooking path — invalid quantity, missing event,
insufficient inventory — returns its typed error with the store completely
unchanged: no ticket decrement, no booking record, no counter consumed. -/
theorem c5_error_paths_mutate_nothing :
    ∀ (s : St) (u eid : Nat) (q : Int) (ok : Bool),
      (q < 1 → createBookingRun s u eid q ok = (.invalidQuantity, s)) ∧
      (¬q < 1 → findEvent s eid = none →
        createBookingRun s u eid q ok = (.eventNotFound, s)) ∧
      (∀ e, ¬q < 1 → findEvent s eid = some e → e.availableTickets < q →
        createBookingRun s u eid q ok = (.insufficientInventory, s)) := by
  intro s u eid q ok
  refine ⟨?_, ?_, ?_⟩
  · intro h
    simp [createBookingRun, h]
  · intro h1 h2
    have h2' : s.events.find? (fun e => e.id == eid) = none := h2
    simp [createBookingRun, h1, h2']
  · intro e h1 h2 h3
    have h2' : s.events.find? (fun x => x.id == eid) = some e := h2
    simp [createBookingRun, h1, h2', h3]

/-- Witness for C5: all three error paths evaluated on concrete stores. -/
theorem c5_error_paths_mutate_nothing_witness :
    createBookingRun ⟨[⟨1, 5, 10, 10⟩], [], []⟩ 7 1 0 true =
      (.invalidQuantity, ⟨[⟨1, 5, 10, 10⟩], [], []⟩) ∧
    createBookingRun ⟨[⟨1, 5, 10, 10⟩], [], []⟩ 7 2 3 true =
      (.eventNotFound, ⟨[⟨1, 5, 10, 10⟩], [], []⟩) ∧
    createBookingRun ⟨[⟨1, 5, 10, 2⟩], [], []⟩ 7 1 3 true =
      (.insufficientInventory, ⟨[⟨1, 5, 10, 2⟩], [], []⟩) :=
  ⟨(c5_error_paths_mutate_nothing ⟨[⟨1, 5, 10, 10⟩], [], []⟩ 7 1 0 true).1 (by decide),
   (c5_error_paths_mutate_nothing ⟨[⟨1, 5, 10, 10⟩], [], []⟩ 7 2 3 true).2.1
     (by decide) (by decide),
   (c5_error_paths_mutate_nothing ⟨[⟨1, 5, 10, 2⟩], [], []⟩ 7 1 3 true).2.2
     ⟨1, 5, 10, 2⟩ (by decide) (by decide) (by decide)⟩

/-- C6 counterexample: on a booking that is already cancelled, a cancel
request by a non-owner returns Forbidden, not AlreadyCancelled — so not
every subsequent cancelBooking call on a cancelled booking returns
AlreadyCancelled. -/
theorem c6_counterexample_nonowner_gets_forbidden :
    (cancelBooking ⟨[⟨1, 5, 10, 10⟩], [⟨1, 7, 1, 3, 15, .cancelled⟩], []⟩
        ⟨9, false⟩ 1).1 = .forbidden ∧
    CancelResult.forbidden ≠ CancelResult.alreadyCancelled := by
  decide

/-- C6 amended: a cancelled booking is terminal — a cancel call on it by its
owner returns AlreadyCancelled and any other caller gets Forbidden (the
ownership check runs first); in every case the store, hence the event's
availableTickets and the booking record, is left completely unchanged. -/
theorem c6_amended_cancelled_is_terminal :
    ∀ (s : St) (r : Requester) (bid : Nat) (b : Booking),
      s.bookings.find? (fun x => x.id == bid) = some b →
      b.status = .cancelled →
      cancelBooking s r bid =
        ((if b.userId = r.id then CancelResult.alreadyCancelled else .forbidden), s) := by
  intro s r bid b hf hs
  by_cases h : b.userId = r.id
  · simp [cancelBooking, hf, h, hs]
  · simp [cancelBooking, hf, h]

/-- Witness for C6 amended: the owner re-cancelling gets AlreadyCancelled and
the store is untouched. -/
theorem c6_amended_cancelled_is_terminal_witness :
    cancelBooking ⟨[⟨1, 5, 10, 10⟩], [⟨1, 7, 1, 3, 15, .cancelled⟩], []⟩ ⟨7, false⟩ 1 =
      (.alreadyCancelled, ⟨[⟨1, 5, 10, 10⟩], [⟨1, 7, 1, 3, 15, .cancelled⟩], []⟩) :=
  c6_amended_cancelled_is_terminal
    ⟨[⟨1, 5, 10, 10⟩], [⟨1, 7, 1, 3, 15, .cancelled⟩], []⟩ ⟨7, false⟩ 1
    ⟨1, 7, 1, 3, 15, .cancelled⟩ (by decide) (by decide)

/-- C7 counterexample: an administrator (id 9) who does not own booking 1
(owned by user 7) is refused with Forbidden — the cancel handler never
consults the admin flag, contradicting "Forbidden iff the requester is
neither the owner nor an administrator". -/
theorem c7_counterexample_admin_gets_forbidden :
    (cancelBooking ⟨[⟨1, 5, 10, 7⟩], [⟨1, 7, 1, 3, 15, .active⟩], []⟩ ⟨9, true⟩ 1).1 =
      .forbidden ∧
    (Requester.mk 9 true).isAdmin = true ∧ (9 : Nat) ≠ 7 := by
  decide

/-- C7 amended: for an existing booking the result is Forbidden if and only
if the requester is not the booking's owner — administrator status plays no
role in cancelBooking. -/
theorem c7_amended_forbidden_iff_not_owner :
    ∀ (s : St) (r : Requester) (bid : Nat) (b : Booking),
      s.bookings.find? (fun x => x.id == bid) = some b →
      ((cancelBooking s r bid).1 = .forbidden ↔ b.userId ≠ r.id) := by
  intro s r bid b hf
  by_cases h : b.userId = r.id
  · simp [cancelBooking, hf, h]
    by_cases hs : b.status = .cancelled
    · simp [hs]
    · simp [hs]
      cases hev : s.events.find? (fun e => e.id == b.eventId) <;> simp [hev]
  · simp [cancelBooking, hf, h]

/-- Witness for C7 amended: a non-owner, non-admin requester is Forbidden. -/
theorem c7_amended_forbidden_iff_not_owner_witness :
    (cancelBooking ⟨[⟨1, 5, 10, 7⟩], [⟨1, 7, 1, 3, 15, .active⟩], []⟩ ⟨8, false⟩ 1).1 =
        .forbidden ↔ (7 : Nat) ≠ 8 :=
  c7_amended_forbidden_iff_not_owner
    ⟨[⟨1, 5, 10, 7⟩], [⟨1, 7, 1, 3, 15, .active⟩], []⟩ ⟨8, false⟩ 1
    ⟨1, 7, 1, 3, 15, .active⟩ (by decide)

/-- C4 counterexample: cancelling an active quantity-3 booking on an event
with totalTickets = 10 and availableTickets = 9 drives availableTickets to
12 > 10 — the release is not capped at totalTickets. -/
theorem c4_counterexample_release_exceeds_total :
    (cancelBooking ⟨[⟨1, 5, 10, 9⟩], [⟨1, 7, 1, 3, 15, .active⟩], []⟩ ⟨7, false⟩ 1).1 =
      .cancelled ∧
    findEvent
      (cancelBooking ⟨[⟨1, 5, 10, 9⟩], [⟨1, 7, 1, 3, 15, .active⟩], []⟩ ⟨7, false⟩ 1).2
      1 = some ⟨1, 5, 10, 12⟩ ∧
    ¬((12 : Int) ≤ 10) := by
  decide

/-- C4 amended: the release performed by a successful cancelBooking adds the
booking's quantity to availableTickets unconditionally, with no cap at
totalTickets; protection against a duplicate release comes only from the
AlreadyCancelled status guard, not from any clamp. -/
theorem c4_amended_release_uncapped :
    ∀ (s : St) (r : Requester) (bid : Nat) (b : Booking) (e : Event),
      s.bookings.find? (fun x => x.id == bid) = some b →
      b.userId = r.id → b.status = .active →
      s.events.find? (fun x => x.id == b.eventId) = some e →
      (cancelBooking s r bid).1 = .cancelled ∧
      findEvent (cancelBooking s r bid).2 b.eventId =
        some { e with availableTickets := e.availableTickets + b.quantity } := by
  intro s r bid b e hb ho hs he
  have hrun : cancelBooking s r bid =
      (.cancelled,
        { s with
          events := updateFirst (fun x => x.id == b.eventId)
            (fun x => { x with availableTickets := x.availableTickets + b.quantity })
            s.events,
          bookings := updateFirst (fun bb => bb.id == bid)
            (fun bb => { bb with status := .cancelled }) s.bookings }) := by
    simp [cancelBooking, hb, ho, hs, he]
  refine ⟨by simp [hrun], ?_⟩
  rw [hrun]
  show (updateFirst (fun x => x.id == b.eventId)
      (fun x => { x with availableTickets := x.availableTickets + b.quantity })
      s.events).find? (fun x => x.id == b.eventId) = _
  rw [find?_updateFirst_pos (fun x => x.id == b.eventId)
      (fun x => { x with availableTickets := x.availableTickets + b.quantity })
      (fun a ha => ha) s.events, he]
  rfl

/-- Witness for C4 amended: the concrete release of quantity 3 lands on
availableTickets 9 + 3 = 12. -/
theorem c4_amended_release_uncapped_witness :
    (cancelBooking ⟨[⟨1, 5, 10, 9⟩], [⟨1, 7, 1, 3, 15, .active⟩], []⟩ ⟨7, false⟩ 1).1 =
      .cancelled ∧
    findEvent
      (cancelBooking ⟨[⟨1, 5, 10, 9⟩], [⟨1, 7, 1, 3, 15, .active⟩], []⟩ ⟨7, false⟩ 1).2
      1 = some ⟨1, 5, 10, 9 + 3⟩ :=
  c4_amended_release_uncapped
    ⟨[⟨1, 5, 10, 9⟩], [⟨1, 7, 1, 3, 15, .active⟩], []⟩ ⟨7, false⟩ 1
    ⟨1, 7, 1, 3, 15, .active⟩ ⟨1, 5, 10, 9⟩ (by decide) (by decide) (by decide) (by decide)

/-- C3: on an event with 10 available tickets, a createBooking of quantity 3
whose booking-document write fails after the event was saved returns the
generic error with availableTickets durably decremented to 7 while the
booking collection holds no record — the reservation is never released. -/
theorem c3_no_rollback_on_persist_failure :
    (createBookingRun ⟨[⟨1, 5, 10, 10⟩], [], []⟩ 7 1 3 false).1 = .persistError ∧
    (createBookingRun ⟨[⟨1, 5, 10, 10⟩], [], []⟩ 7 1 3 false).2 =
      ⟨[⟨1, 5, 10, 7⟩], [], [("bookingId", 1)]⟩ := by
  decide

/-- C2: with availableTickets = 1 and two concurrent quantity-1 reservation
attempts interleaved read, read, write, write, both attempts pass the
availability check on the same snapshot and both succeed — more than N = 1
successes, so the reservation step is not an indivisible conditional
decrement. -/
theorem c2_race_two_succeed :
    runSched 1 [.start, .start] [0, 1, 0, 1] = (0, [.succeeded, .succeeded]) ∧
    countSucc [APhase.succeeded, APhase.succeeded] = 2 ∧ ¬(2 ≤ 1) := by
  decide

/-- C10: after the event referenced by an active booking is deleted through
the event delete route, cancelBooking on that booking returns the generic
server error and leaves the store of the deleted-event state untouched: no
inventory is released anywhere and the booking's status stays active. -/
theorem c10_cancel_after_event_delete :
    ∀ (s : St) (r : Requester) (bid : Nat) (b : Booking) (e : Event),
      EventIdsNodup s →
      s.bookings.find? (fun x => x.id == bid) = some b →
      b.userId = r.id → b.status = .active →
      s.events.find? (fun x => x.id == b.eventId) = some e →
      (deleteEvent s b.eventId).1 = true ∧
      cancelBooking (deleteEvent s b.eventId).2 r bid =
        (.serverError, (deleteEvent s b.eventId).2) := by
  intro s r bid b e hn hb ho hs he
  have hdel : deleteEvent s b.eventId =
      (true, { s with events := removeFirst (fun x => x.id == b.eventId) s.events }) := by
    simp [deleteEvent, he]
  refine ⟨by simp [hdel], ?_⟩
  rw [hdel]
  have hnone : (removeFirst (fun x => x.id == b.eventId) s.events).find?
      (fun x => x.id == b.eventId) = none := by
    have := find?_removeFirst_of_nodup (x := e) Event.id b.eventId s.events hn he
    exact this
  simp [cancelBooking, hb, ho, hs, hnone]

/-- Witness for C10: concrete store where the event is deleted and the
subsequent cancel returns the generic error without mutating anything. -/
theorem c10_cancel_after_event_delete_witness :
    (deleteEvent ⟨[⟨1, 5, 10, 7⟩], [⟨1, 7, 1, 3, 15, .active⟩], []⟩ 1).1 = true ∧
    cancelBooking (deleteEvent ⟨[⟨1, 5, 10, 7⟩], [⟨1, 7, 1, 3, 15, .active⟩], []⟩ 1).2
        ⟨7, false⟩ 1 =
      (.serverError, (deleteEvent ⟨[⟨1, 5, 10, 7⟩], [⟨1, 7, 1, 3, 15, .active⟩], []⟩ 1).2) :=
  c10_cancel_after_event_delete
    ⟨[⟨1, 5, 10, 7⟩], [⟨1, 7, 1, 3, 15, .active⟩], []⟩ ⟨7, false⟩ 1
    ⟨1, 7, 1, 3, 15, .active⟩ ⟨1, 5, 10, 7⟩
    (by simp [EventIdsNodup]) (by decide) (by decide) (by decide) (by decide)

/-- C8: starting from an empty counter collection, the values the allocator
returns for a namespace over any sequence of calls are exactly 1, 2, 3, … in
call order — so each call returns an integer strictly greater than every
value previously returned for that namespace (all values distinct), and the
first value for a freshly used namespace is 1. -/
theorem c8_allocator_monotone_from_one :
    ∀ (calls : List String) (n : String),
      issuedFor n (runAlloc [] calls) = List.range' 1 (calls.count n) ∧
      (issuedFor n (runAlloc [] calls)).Pairwise (· < ·) ∧
      (issuedFor n (runAlloc [] calls)).head? =
        (if calls.count n = 0 then none else some 1) := by
  intro calls n
  have h := issuedFor_runAlloc n calls []
  have h0 : lookupSeq [] n = 0 := rfl
  rw [h0] at h
  refine ⟨h, ?_, ?_⟩
  · rw [h]
    exact List.pairwise_lt_range' 1 _
  · rw [h]
    cases hc : calls.count n with
    | zero => simp
    | succ k => simp [List.range'_succ]

/-- C9: a booking's totalPrice is computed as the event's price at the moment
of creation times the quantity; the event-update route never touches the
booking collection (so a later price change cannot reach any booking); and
cancellation preserves every booking's id, userId, eventId, quantity and
totalPrice (only the status flag can change). -/
theorem c9_totalPrice_frozen :
    (∀ (s : St) (u eid : Nat) (q : Int) (e : Event) (b : Booking) (s' : St),
      findEvent s eid = some e →
      createBooking s u eid q = (.created b, s') →
      b.totalPrice = e.price * q) ∧
    (∀ (s : St) (eid : Nat) (p t : Option Int),
      ((updateEvent s eid p t).2).bookings = s.bookings) ∧
    (∀ (s : St) (r : Requester) (bid : Nat),
      ((cancelBooking s r bid).2).bookings.map bookingCore =
        s.bookings.map bookingCore) := by
  refine ⟨?_, ?_, ?_⟩
  · intro s u eid q e b s' hev hrun
    have hev' : s.events.find? (fun x => x.id == eid) = some e := hev
    by_cases h1 : q < 1
    · simp [createBooking, createBookingRun, h1] at hrun
    · by_cases h2 : e.availableTickets < q
      · simp [createBooking, createBookingRun, h1, hev', h2] at hrun
      · simp [createBooking, createBookingRun, h1, hev', h2] at hrun
        obtain ⟨hb, -⟩ := hrun
        rw [← hb]
  · intro s eid p t
    cases hev : s.events.find? (fun e => e.id == eid) with
    | none => simp [updateEvent, hev]
    | some ev =>
      cases t with
      | none => simp [updateEvent, hev]
      | some tv =>
        by_cases hneg : ev.availableTickets + (tv - ev.totalTickets) < 0
        · simp [updateEvent, hev, hneg]
        · simp [updateEvent, hev, hneg]
  · intro s r bid
    cases hb : s.bookings.find? (fun x => x.id == bid) with
    | none => simp [cancelBooking, hb]
    | some b =>
      by_cases ho : b.userId = r.id
      · by_cases hs : b.status = .cancelled
        · simp [cancelBooking, hb, ho, hs]
        · cases hev : s.events.find? (fun x => x.id == b.eventId) with
          | none => simp [cancelBooking, hb, ho, hs, hev]
          | some ev =>
            simp [cancelBooking, hb, ho, hs, hev,
              updateFirst_map bookingCore (fun bb => bb.id == bid)
                (fun bb => { bb with status := .cancelled }) (fun a => rfl) s.bookings]
      · simp [cancelBooking, hb, ho]

/-- Witness for C9: the concrete created booking's totalPrice is
price 5 × quantity 3. -/
theorem c9_totalPrice_frozen_witness :
    (Booking.mk 1 7 1 3 15 .active).totalPrice = (5 : Int) * 3 :=
  c9_totalPrice_frozen.1 ⟨[⟨1, 5, 10, 10⟩], [], []⟩ 7 1 3 ⟨1, 5, 10, 10⟩
    ⟨1, 7, 1, 3, 15, .active⟩
    ⟨[⟨1, 5, 10, 7⟩], [⟨1, 7, 1, 3, 15, .active⟩], [("bookingId", 1)]⟩
    (by decide) (by decide)

/-- C1: starting from a store holding one event with availableTickets =
totalTickets and no bookings, after any sequence of completed createBooking
and cancelBooking requests every event satisfies
availableTickets + Σ(quantity of its active bookings) = totalTickets. -/
theorem c1_inventory_invariant :
    ∀ (e0 : Event) (cs : List (String × Nat)) (ops : List Op),
      e0.availableTickets = e0.totalTickets →
      Consistent (runOps ⟨[e0], [], cs⟩ ops) := by
  intro e0 cs ops h
  refine (runOps_preserves ops ⟨[e0], [], cs⟩ ?_ ?_).2
  · show ([e0].map Event.id).Nodup
    simp
  · intro e he
    have he0 : e = e0 := by simpa using he
    subst he0
    show e.availableTickets + activeSum [] e.id = e.totalTickets
    simp [activeSum, h]

/-- Witness for C1: a concrete run — book 3, cancel it, book 2, plus failing
requests — keeps the invariant. -/
theorem c1_inventory_invariant_witness :
    (Event.mk 1 5 10 10).availableTickets = (Event.mk 1 5 10 10).totalTickets ∧
    Consistent (runOps ⟨[⟨1, 5, 10, 10⟩], [], []⟩
      [.create 7 1 3, .cancel ⟨9, false⟩ 1, .cancel ⟨7, false⟩ 1,
       .create 8 1 2, .create 8 1 100, .cancel ⟨7, false⟩ 1]) :=
  ⟨rfl, c1_inventory_invariant ⟨1, 5, 10, 10⟩ []
    [.create 7 1 3, .cancel ⟨9, false⟩ 1, .cancel ⟨7, false⟩ 1,
     .create 8 1 2, .create 8 1 100, .cancel ⟨7, false⟩ 1] rfl⟩

end Eventora
